import Mathlib

set_option maxRecDepth 4096

/-!
Verification of `cta_tracker/fetch_cta.py` (the_holy_fruit repository).

The Python program fetches CTA train arrival times over HTTP, parses the JSON
response, computes a clamped countdown for each arrival, and renders a static
HTML page.  This file gives a shallow embedding of that program in Lean:

* JSON values and Python `dict.get` navigation;
* proleptic-Gregorian calendar arithmetic (seconds since the Unix epoch),
  used to model `datetime` instants at the seconds precision the program
  works with;
* the `America/Chicago` time zone (post-2007 United States DST rules:
  daylight saving from the second Sunday of March, 02:00 local standard
  time, to the first Sunday of November, 02:00 local daylight time;
  offsets CST = UTC-06:00 and CDT = UTC-05:00), with `fold=0` disambiguation
  for naive wall-clock times exactly as Python's `zoneinfo` performs it;
* the subset of `dateutil.parser.parse`'s permissive grammar exercised by
  this system (ISO-like `YYYY-MM-DD[T ]HH:MM:SS` with an optional
  `Z`/`±HH:MM`/`±HHMM` offset, and the compact `YYYYMMDD HH:MM:SS` form the
  CTA API emits), returning a civil reading plus an optional UTC offset;
* `get_cta_train_times` itself: HTTP status check, JSON navigation with
  empty defaults, per-entry timestamp parsing, countdown clamping and
  `divmod` splitting, and record construction;
* `write_html`: the exact HTML template of the source, one table row per
  record, with the `"No data"` placeholder for the empty case;
* the `__main__` entry point as a state transformer on the output file.

Ambient effects become explicit parameters: the network response, the two
clock readings (`datetime.now` at fetch time and at render time, as epoch
seconds), the host system's local time zone (the target of the no-argument
`astimezone()` call on line 65 of the source, as a map from UTC instants to
UTC offsets in seconds), and the `STOP_ID` configuration string.
-/

/-- JSON values, as produced by `resp.json()`.  Numbers are restricted to
integers: no claim involves fractional JSON numbers. -/
inductive Json where
  | null
  | bool (b : Bool)
  | num (n : Int)
  | str (s : String)
  | arr (xs : List Json)
  | obj (kvs : List (String × Json))

/-- Association-list lookup, the semantics of Python `dict` access for the
object case (JSON objects parsed by `json` have unique keys; on duplicates
we take the first, which never matters below). -/
def jlookup : List (String × Json) → String → Option Json
  | [], _ => none
  | (k, v) :: rest, key => if k = key then some v else jlookup rest key

/-- Python `d.get(key, default)`: succeeds with the mapped value or the
default when `d` is a dictionary, and raises `AttributeError` otherwise. -/
def pyDictGetD (j : Json) (key : String) (dflt : Json) : Except String Json :=
  match j with
  | Json.obj kvs =>
    match jlookup kvs key with
    | some v => Except.ok v
    | none => Except.ok dflt
  | _ => Except.error "AttributeError: object has no attribute get"

/-- Python `str()` applied to a JSON-derived value, as interpolated by the
f-strings in `write_html`.  Containers are not modelled (no claim depends on
them); scalars follow Python exactly (`None`, `True`/`False`, decimal
integers, strings verbatim). -/
def pyStr : Json → String
  | Json.null => "None"
  | Json.bool b => if b then "True" else "False"
  | Json.num n => toString n
  | Json.str s => s
  | Json.arr _ => "<container>"
  | Json.obj _ => "<container>"

/-! ## Calendar arithmetic

Instants are integer seconds since 1970-01-01T00:00:00 UTC; civil (wall
clock) readings are also encoded as seconds since the epoch of their
components read as if they were UTC.  The day-count conversions are the
standard proleptic-Gregorian formulas. -/

/-- Civil date-time components (what `datetime`'s year..second fields hold). -/
structure Civil where
  year : Int
  month : Int
  day : Int
  hour : Int
  minute : Int
  second : Int
deriving DecidableEq

/-- Days from the epoch 1970-01-01 of a proleptic-Gregorian date. -/
def daysFromCivil (y m d : Int) : Int :=
  let y' := if m ≤ 2 then y - 1 else y
  let era := Int.fdiv y' 400
  let yoe := Int.fmod y' 400
  let mp := (m + 9) % 12
  let doy := (153 * mp + 2) / 5 + d - 1
  let doe := yoe * 365 + yoe / 4 - yoe / 100 + doy
  era * 146097 + doe - 719468

/-- Date of a day count from the epoch (inverse of `daysFromCivil`). -/
def civilFromDays (z0 : Int) : Int × Int × Int :=
  let z := z0 + 719468
  let era := Int.fdiv z 146097
  let doe := Int.fmod z 146097
  let yoe := (doe - doe / 1460 + doe / 36524 - doe / 146096) / 365
  let y := yoe + era * 400
  let doy := doe - (365 * yoe + yoe / 4 - yoe / 100)
  let mp := (5 * doy + 2) / 153
  let d := doy - (153 * mp + 2) / 5 + 1
  let m := mp + (if mp < 10 then 3 else -9)
  (y + (if m ≤ 2 then 1 else 0), m, d)

/-- Seconds since the epoch of a civil reading (interpreted as UTC). -/
def civilToEpoch (y mo d h mi s : Int) : Int :=
  daysFromCivil y mo d * 86400 + h * 3600 + mi * 60 + s

/-- Seconds-since-epoch of a `Civil` value. -/
def Civil.toEpoch (c : Civil) : Int :=
  civilToEpoch c.year c.month c.day c.hour c.minute c.second

/-- Civil reading of a seconds-since-epoch value (interpreted as UTC). -/
def civilFromEpoch (t : Int) : Civil :=
  let days := Int.fdiv t 86400
  let sod := Int.fmod t 86400
  let ymd := civilFromDays days
  { year := ymd.1, month := ymd.2.1, day := ymd.2.2,
    hour := sod / 3600, minute := (sod / 60) % 60, second := sod % 60 }

/-- Leap year test of the Gregorian calendar. -/
def isLeap (y : Int) : Bool :=
  (y % 4 = 0 && y % 100 ≠ 0) || y % 400 = 0

/-- Days in a month (used by the timestamp parser's range validation). -/
def daysInMonth (y m : Int) : Int :=
  if m = 2 then (if isLeap y then 29 else 28)
  else if m = 4 || m = 6 || m = 9 || m = 11 then 30
  else 31

/-- Zero-padded two-digit rendering, as `strftime` `%m`/`%d`/`%H`/`%M`/`%S`. -/
def pad2 (n : Int) : String :=
  if n < 10 then "0" ++ toString n else toString n

/-- Zero-padded four-digit rendering, as `strftime` `%Y` for the years in
range here. -/
def pad4 (n : Int) : String :=
  if n < 10 then "000" ++ toString n
  else if n < 100 then "00" ++ toString n
  else if n < 1000 then "0" ++ toString n
  else toString n

/-- Rendering of a civil reading as `strftime("%Y-%m-%d %H:%M:%S")`. -/
def formatYmdHms (c : Civil) : String :=
  pad4 c.year ++ "-" ++ pad2 c.month ++ "-" ++ pad2 c.day ++ " " ++
    pad2 c.hour ++ ":" ++ pad2 c.minute ++ ":" ++ pad2 c.second

/-! ## The America/Chicago time zone

Post-2007 United States rules, which `ZoneInfo("America/Chicago")` applies
to every date this program can encounter.  Standard time is UTC-06:00 (CST),
daylight time UTC-05:00 (CDT); DST runs from the second Sunday of March at
02:00 standard time to the first Sunday of November at 02:00 daylight
time. -/

/-- Day of the month of the `n`-th Sunday of month `m` in year `y`
(`1970-01-01` was a Thursday; day-of-week `0` is Sunday). -/
def nthSundayDay (y m : Int) (n : Nat) : Int :=
  let first := daysFromCivil y m 1
  let dow := (first + 4) % 7
  1 + ((7 - dow) % 7) + 7 * (n - 1 : Int)

/-- DST test for a naive Chicago wall-clock reading with `fold=0`: PEP 495
assigns the pre-transition offset inside the spring-forward gap
(wall clock 02:00-02:59 of the second Sunday of March reads as CST) and the
first occurrence inside the fall-back overlap (01:00-01:59 of the first
Sunday of November reads as CDT), so in wall-clock terms DST holds from
March's second Sunday 03:00 up to November's first Sunday 02:00. -/
def chicagoWallDst (c : Civil) : Bool :=
  let w := c.toEpoch
  let dstStart := civilToEpoch c.year 3 (nthSundayDay c.year 3 2) 3 0 0
  let dstEnd := civilToEpoch c.year 11 (nthSundayDay c.year 11 1) 2 0 0
  dstStart ≤ w && w < dstEnd

/-- UTC offset (seconds east) that `replace(tzinfo=ZoneInfo("America/Chicago"))`
assigns to a naive civil reading (`fold=0`). -/
def chicagoWallOffset (c : Civil) : Int :=
  if chicagoWallDst c then -18000 else -21600

/-- DST test for a UTC instant in America/Chicago (transition instants are
02:00 CST = 08:00 UTC in March and 02:00 CDT = 07:00 UTC in November). -/
def chicagoInstantDst (t : Int) : Bool :=
  let y := (civilFromEpoch (t - 21600)).year
  let dstStart := civilToEpoch y 3 (nthSundayDay y 3 2) 2 0 0 + 21600
  let dstEnd := civilToEpoch y 11 (nthSundayDay y 11 1) 2 0 0 + 18000
  dstStart ≤ t && t < dstEnd

/-- UTC offset (seconds east) of America/Chicago at a UTC instant. -/
def chicagoInstantOffset (t : Int) : Int :=
  if chicagoInstantDst t then -18000 else -21600

/-! ## Timestamp parsing

Model of `dateutil.parser.parse` on the inputs this system can meet: an
ISO-like date `YYYY-MM-DD` or compact `YYYYMMDD`, a `T` or space separator,
a time `HH:MM:SS`, and an optional trailing `Z`, `±HH:MM` or `±HHMM` offset.
A timestamp with no trailing offset parses as a naive datetime
(`tzinfo is None`); component ranges are validated as `dateutil` does. -/

/-- Parsed datetime: a civil reading plus an optional fixed UTC offset in
seconds (`none` models a naive `datetime`). -/
structure ParsedDT where
  civil : Civil
  tzOffset : Option Int
deriving DecidableEq

/-- Reads exactly `n` decimal digits from the front, returning their value
and the rest. -/
def readNDigits (n : Nat) (cs : List Char) : Option (Nat × List Char) :=
  let pre := cs.take n
  if pre.length = n && pre.all (fun c => c.isDigit) then
    some (pre.foldl (fun a c => 10 * a + (c.toNat - 48)) 0, cs.drop n)
  else none

/-- Consumes one expected character from the front. -/
def expectChar (c : Char) : List Char → Option (List Char)
  | [] => none
  | d :: rest => if d = c then some rest else none

/-- Parses `YYYY-MM-DD` or `YYYYMMDD`, returning year, month, day, rest. -/
def parseDatePart (cs : List Char) : Option (Nat × Nat × Nat × List Char) :=
  match (do
    let (y, r1) ← readNDigits 4 cs
    let r2 ← expectChar '-' r1
    let (mo, r3) ← readNDigits 2 r2
    let r4 ← expectChar '-' r3
    let (d, r5) ← readNDigits 2 r4
    pure (y, mo, d, r5) : Option (Nat × Nat × Nat × List Char)) with
  | some x => some x
  | none => do
    let (y, r1) ← readNDigits 4 cs
    let (mo, r2) ← readNDigits 2 r1
    let (d, r3) ← readNDigits 2 r2
    pure (y, mo, d, r3)

/-- Parses `HH:MM:SS`, returning hour, minute, second, rest. -/
def parseTimePart (cs : List Char) : Option (Nat × Nat × Nat × List Char) := do
  let (h, r1) ← readNDigits 2 cs
  let r2 ← expectChar ':' r1
  let (mi, r3) ← readNDigits 2 r2
  let r4 ← expectChar ':' r3
  let (s, r5) ← readNDigits 2 r4
  pure (h, mi, s, r5)

/-- Parses the trailing offset: nothing (naive), `Z`, `±HH:MM` or `±HHMM`.
Returns `none` on malformed trailing text, `some none` for naive, and
`some (some off)` for an explicit offset of `off` seconds east of UTC. -/
def parseOffsetPart (cs : List Char) : Option (Option Int) :=
  match cs with
  | [] => some none
  | ['Z'] => some (some 0)
  | sgn :: rest =>
    if sgn = '+' || sgn = '-' then do
      let (hh, r1) ← readNDigits 2 rest
      let r2 := match expectChar ':' r1 with
        | some r => r
        | none => r1
      let (mm, r3) ← readNDigits 2 r2
      if r3 = [] && hh ≤ 23 && mm ≤ 59 then
        let mag : Int := hh * 3600 + mm * 60
        pure (some (if sgn = '-' then -mag else mag))
      else none
    else none

/-- Model of `dateutil.parser.parse`; `none` models a `ParserError`. -/
def dateutil_parse (s : String) : Option ParsedDT := do
  let (y, mo, d, r1) ← parseDatePart s.data
  let r2 ← match r1 with
    | 'T' :: r => some r
    | ' ' :: r => some r
    | _ => none
  let (h, mi, sec, r3) ← parseTimePart r2
  let off ← parseOffsetPart r3
  if 1 ≤ mo && mo ≤ 12 && 1 ≤ d && (d : Int) ≤ daysInMonth y mo &&
      h ≤ 23 && mi ≤ 59 && sec ≤ 59 then
    pure { civil := ⟨y, mo, d, h, mi, sec⟩, tzOffset := off }
  else none

/-! ## The fetch stage: `get_cta_train_times`

Ambient inputs become parameters: `netResp` is the outcome of
`requests.get` (`Except.error` models a raised transport exception such as
a timeout), `now` is the instant `datetime.now(local_tz)` returns at fetch
time (epoch seconds; an aware `datetime`'s identity is its instant), and
`sysOffset` is the host system's local zone as a map from UTC instants to
UTC offsets in seconds — the zone the no-argument `astimezone()` call on
source line 65 converts into. -/

/-- Outcome of `requests.get` when no transport exception was raised. The
body is `none` when it is not valid JSON (`resp.json()` raises). -/
structure HttpResponse where
  status : Nat
  body : Option Json

/-- Model of `resp.raise_for_status()`: raises `HTTPError` exactly on
status codes 400-599. -/
def raise_for_status (r : HttpResponse) : Except String Unit :=
  if 400 ≤ r.status ∧ r.status < 600 then Except.error "HTTPError"
  else Except.ok ()

/-- One record of the list `get_cta_train_times` returns. -/
structure ArrivalRecord where
  route : Json
  destination : Json
  arrival_time : String
  minutes_away : Int
  seconds_away : Int
  time_remaining : String

/-- UTC instant of a parsed arrival timestamp, as the source computes it on
lines 53-57: an explicit offset is honoured; a naive reading is localized
with `replace(tzinfo=ZoneInfo("America/Chicago"))`. -/
def parsedInstant (dt : ParsedDT) : Int :=
  match dt.tzOffset with
  | some off => dt.civil.toEpoch - off
  | none => dt.civil.toEpoch - chicagoWallOffset dt.civil

/-- UTC instant of an entry's `arrT` timestamp, when the entry is a
dictionary whose `arrT` value is a string the parser accepts. -/
def entryInstant (arrival : Json) : Except String Int :=
  match arrival with
  | Json.obj kvs =>
    match jlookup kvs "arrT" with
    | some (Json.str s) =>
      match dateutil_parse s with
      | some dt => Except.ok (parsedInstant dt)
      | none => Except.error "ParserError: unknown string format"
    | some _ => Except.error "TypeError: parser got a non-string"
    | none => Except.error "TypeError: parser got None"
  | _ => Except.error "AttributeError: object has no attribute get"

/-- Loop body of `get_cta_train_times` (source lines 51-69) for one arrival
entry.  `arrival.get("arrT")` yields `None` when the key is absent, and
`date_parser.parse` then raises; a non-dictionary entry makes `.get` itself
raise.  The countdown is truncated to whole seconds, clamped at zero, and
split with `divmod(total_seconds, 60)`; since the clamped value is
non-negative, Lean's `/` and `%` on `Int` agree with Python's here.  The
display time is `arr_dt.astimezone().strftime("%Y-%m-%d %H:%M:%S")`: a
conversion into the host system's zone `sysOffset`. -/
def processEntry (now : Int) (sysOffset : Int → Int) (arrival : Json) :
    Except String ArrivalRecord :=
  match arrival with
  | Json.obj kvs =>
    match jlookup kvs "arrT" with
    | some (Json.str s) =>
      match dateutil_parse s with
      | some dt =>
        let instant := parsedInstant dt
        let total_seconds := instant - now
        let total_seconds := if total_seconds < 0 then 0 else total_seconds
        let mins := total_seconds / 60
        let secs := total_seconds % 60
        Except.ok
          { route := (jlookup kvs "rt").getD Json.null,
            destination := (jlookup kvs "destNm").getD Json.null,
            arrival_time := formatYmdHms (civilFromEpoch (instant + sysOffset instant)),
            minutes_away := mins,
            seconds_away := secs,
            time_remaining := toString mins ++ "m " ++ toString secs ++ "s" }
      | none => Except.error "ParserError: unknown string format"
    | some _ => Except.error "TypeError: parser got a non-string"
    | none => Except.error "TypeError: parser got None"
  | _ => Except.error "AttributeError: object has no attribute get"

/-- Source lines 44-47: status check, JSON decode and the
`ctatt`/`eta` navigation with empty defaults, producing the list of arrival
entries the loop iterates over.  Iterating a non-list `eta` value is
modelled as an error (Python would raise on the subsequent `.get` calls for
the values the API can produce). -/
def fetchEntries (netResp : Except String HttpResponse) :
    Except String (List Json) := do
  let resp ← netResp
  let _ ← raise_for_status resp
  let j ← match resp.body with
    | some j => Except.ok j
    | none => Except.error "JSONDecodeError"
  let data ← pyDictGetD j "ctatt" (Json.obj [])
  let eta ← pyDictGetD data "eta" (Json.arr [])
  match eta with
  | Json.arr xs => Except.ok xs
  | _ => Except.error "TypeError: eta value is not iterable as entries"

/-- Model of `get_cta_train_times` (source lines 36-71).  The request and
logging side effects carry no data dependencies; everything else is mapped
one-to-one: the navigation of `fetchEntries` followed by the per-entry
loop, which appends records in iteration order. -/
def get_cta_train_times (netResp : Except String HttpResponse) (now : Int)
    (sysOffset : Int → Int) : Except String (List ArrivalRecord) := do
  let arrivals ← fetchEntries netResp
  arrivals.mapM (processEntry now sysOffset)

/-! ## The render stage: `write_html`

The template is transcribed verbatim from source lines 88-118 (Python's
`f"""..."""` turns `\"` into a quote and `{{`/`}}` into literal braces).
The document is the concatenation of fixed template text with the rendered
`refresh_interval`, the ambient `STOP_ID`, the render-time clock reading
`now_local`, and the rows block. -/

/-- Row for one record (source lines 78-84): four cells, interpolated with
Python `str()`, concatenated with no separator. -/
def renderRow (t : ArrivalRecord) : String :=
  "<tr>" ++ "<td>" ++ pyStr t.route ++ "</td>" ++ "<td>" ++
    pyStr t.destination ++ "</td>" ++ "<td>" ++ t.arrival_time ++ "</td>" ++
    "<td>" ++ t.time_remaining ++ "</td>" ++ "</tr>"

/-- Placeholder row emitted for an empty table (source line 86). -/
def noDataRow : String := "<tr><td colspan=4>No data</td></tr>"

/-- Rows block (source lines 78-86): newline-joined rows, or — through
Python's `or` on the falsy empty string — the placeholder row. -/
def rowsFor (train_times : List ArrivalRecord) : String :=
  let joined := String.intercalate "\n" (train_times.map renderRow)
  if joined = "" then noDataRow else joined

/-- Render-time clock line `datetime.now(local_tz).strftime("%Y-%m-%d
%H:%M:%S %Z")` (source line 77): Chicago civil time plus the zone
abbreviation. -/
def chicagoNowString (t : Int) : String :=
  formatYmdHms (civilFromEpoch (t + chicagoInstantOffset t)) ++ " " ++
    (if chicagoInstantDst t then "CDT" else "CST")

/-- Template text from the document start up to the first
`refresh_interval` interpolation. -/
def htmlPart1 : String :=
  "<!doctype html>\n<html lang=\"en\">\n<head>\n  <meta charset=\"utf-8\">\n    <meta http-equiv=\"refresh\" content=\""

/-- Template text between the two `refresh_interval` interpolations. -/
def htmlPart2 : String := "\"> <!-- auto-refresh every "

/-- Template text from after the second `refresh_interval` interpolation up
to the `STOP_ID` interpolation (the style block's braces are literal text
produced by the f-string's doubled braces). -/
def htmlPart3 : String :=
  "s -->\n  <title>Chicago Brown Line Stop</title>\n  <style>\n    body \x7b background-color: #3e2723; color: #d7ccc8; font-family: sans-serif; margin: 0; padding: 1rem; \x7d\n    h1 \x7b color: #ffcc80; \x7d\n    table \x7b width: 100%; border-collapse: collapse; margin-top: 1rem; \x7d\n    th, td \x7b padding: 0.5rem; border: 1px solid #5d4037; text-align: left; \x7d\n    th \x7b background-color: #5d4037; color: #ffe0b2; \x7d\n    tr:nth-child(even) \x7b background-color: #4e342e; \x7d\n  </style>\n</head>\n<body>\n  <h1>Chicago Brown Line - Stop "

/-- Template text between the `STOP_ID` and `now_local` interpolations. -/
def htmlPart4 : String := "</h1>\n  <p>Last updated: "

/-- Template text between the `now_local` and `rows` interpolations,
including the fixed header row of the table. -/
def htmlPart5 : String :=
  "</p>\n  <table>\n    <thead>\n      <tr>\n        <th>Route</th><th>Destination</th><th>ETA</th><th>Time Remaining</th>\n      </tr>\n    </thead>\n    <tbody>\n      "

/-- Template text after the `rows` interpolation. -/
def htmlPart6 : String :=
  "\n    </tbody>\n  </table>\n</body>\n</html>\n"

/-- Document text before the rows block. -/
def htmlDocPrefix (stop : String) (refresh_interval renderNow : Int) : String :=
  htmlPart1 ++ toString refresh_interval ++ htmlPart2 ++
    toString refresh_interval ++ htmlPart3 ++ stop ++ htmlPart4 ++
    chicagoNowString renderNow ++ htmlPart5

/-- Model of `write_html` (source lines 75-124): the full document text the
function writes to `www/index.html`.  `stop` is the ambient `STOP_ID`
configuration value and `renderNow` the render-time clock reading. -/
def write_html (stop : String) (renderNow : Int)
    (train_times : List ArrivalRecord) (refresh_interval : Int := 2) : String :=
  htmlDocPrefix stop refresh_interval renderNow ++ rowsFor train_times ++ htmlPart6

/-! ## The entry point

Source lines 127-129: fetch, then render; an exception from the fetch
stage propagates and the process aborts before `write_html` runs.  The
output file is the single piece of state a run can change. -/

/-- State of the fixed output path `www/index.html` (`none`: no file). -/
structure FileSystem where
  outFile : Option String

/-- Model of the `__main__` block: on fetch success the output file is
overwritten with the rendered document (default refresh interval 2); on
fetch failure the exception propagates and the file system is untouched. -/
def run_main (netResp : Except String HttpResponse) (fetchNow : Int)
    (sysOffset : Int → Int) (renderNow : Int) (stop : String)
    (fs : FileSystem) : FileSystem × Except String Unit :=
  match get_cta_train_times netResp fetchNow sysOffset with
  | Except.error e => (fs, Except.error e)
  | Except.ok trains => ({ outFile := some (write_html stop renderNow trains) }, Except.ok ())

/-- Number of occurrences of a pattern in a character list (occurrences at
each starting position; patterns of interest never overlap themselves). -/
def countOccs (pat : List Char) : List Char → Nat
  | [] => 0
  | c :: rest =>
    (if pat.isPrefixOf (c :: rest) then 1 else 0) + countOccs pat rest

/-! ## Concrete scenario inputs

Fixed inputs used by the end-to-end claims and by witnesses: the spec's
scenario 1 payload, a past-arrival payload, a naive-timestamp payload, and
the `{"ctatt":{}}` degenerate body. -/

/-- Arrival entry of end-to-end scenario 1. -/
def entry9 : Json :=
  Json.obj [("rt", Json.str "Brn"), ("destNm", Json.str "Kimball"),
    ("arrT", Json.str "2024-01-01T10:05:00-06:00")]

/-- Response body of end-to-end scenario 1. -/
def body9 : Json := Json.obj [("ctatt", Json.obj [("eta", Json.arr [entry9])])]

/-- Scenario 1 clock reading: the instant of `2024-01-01T10:00:00-06:00`. -/
def now9 : Int := civilToEpoch 2024 1 1 10 0 0 + 21600

/-- Instant of the scenario 1 arrival `2024-01-01T10:05:00-06:00`. -/
def i9 : Int := civilToEpoch 2024 1 1 10 5 0 + 21600

/-- Host-zone map of a machine running in UTC. -/
def sysUTC : Int → Int := fun _ => 0

/-- Arrival entry whose timestamp precedes `now9` by one hour. -/
def entryPast : Json := Json.obj [("arrT", Json.str "2024-01-01T09:00:00-06:00")]

/-- Instant of the past arrival `2024-01-01T09:00:00-06:00`. -/
def iPast : Int := civilToEpoch 2024 1 1 9 0 0 + 21600

/-- Response body holding only the past arrival. -/
def bodyPast : Json := Json.obj [("ctatt", Json.obj [("eta", Json.arr [entryPast])])]

/-- Arrival entry with a naive (offset-free) timestamp. -/
def entryNaive : Json := Json.obj [("arrT", Json.str "2024-06-01T12:00:00")]

/-- Degenerate body of end-to-end scenario 3: a `ctatt` object with no
`eta` key. -/
def bodyNoEta : Json := Json.obj [("ctatt", Json.obj [])]

/-- Record scenario 1 produces on a UTC host. -/
def rec9utc : ArrivalRecord :=
  { route := Json.str "Brn", destination := Json.str "Kimball",
    arrival_time := "2024-01-01 16:05:00", minutes_away := 5,
    seconds_away := 0, time_remaining := "5m 0s" }

/-- Record the past arrival produces on a UTC host. -/
def recPastUtc : ArrivalRecord :=
  { route := Json.null, destination := Json.null,
    arrival_time := "2024-01-01 15:00:00", minutes_away := 0,
    seconds_away := 0, time_remaining := "0m 0s" }

/-! ## Helper lemmas -/

/-- Inversion of a successful `processEntry`: the entry's timestamp
resolves to an instant, and every record field is determined by that
instant, the clock and the host zone exactly as lines 57-68 compute
them. -/
theorem processEntry_fields (now : Int) (sys : Int → Int) (a : Json)
    (r : ArrivalRecord) (h : processEntry now sys a = Except.ok r) :
    ∃ i, entryInstant a = Except.ok i ∧
      r.minutes_away = (if i - now < 0 then 0 else i - now) / 60 ∧
      r.seconds_away = (if i - now < 0 then 0 else i - now) % 60 ∧
      r.arrival_time = formatYmdHms (civilFromEpoch (i + sys i)) ∧
      r.time_remaining =
        toString r.minutes_away ++ "m " ++ toString r.seconds_away ++ "s" := by
  cases a with
  | obj kvs =>
    cases hl : jlookup kvs "arrT" with
    | none => simp [processEntry, hl] at h
    | some v =>
      cases v with
      | str s =>
        cases hp : dateutil_parse s with
        | none => simp [processEntry, hl, hp] at h
        | some dt =>
          refine ⟨parsedInstant dt, by simp [entryInstant, hl, hp], ?_⟩
          simp only [processEntry, hl, hp] at h
          cases h
          simp
      | null => simp [processEntry, hl] at h
      | bool b => simp [processEntry, hl] at h
      | num n => simp [processEntry, hl] at h
      | arr xs => simp [processEntry, hl] at h
      | obj kvs2 => simp [processEntry, hl] at h
  | null => simp [processEntry] at h
  | bool b => simp [processEntry] at h
  | num n => simp [processEntry] at h
  | str s => simp [processEntry] at h
  | arr xs => simp [processEntry] at h

/-- Inversion of a successful `mapM` over the per-entry loop body: every
output record comes from some input entry. -/
theorem mapM_ok_mem (now : Int) (sys : Int → Int) :
    ∀ (l : List Json) (ts : List ArrivalRecord),
      l.mapM (processEntry now sys) = Except.ok ts →
      ∀ r ∈ ts, ∃ a ∈ l, processEntry now sys a = Except.ok r := by
  have main : ∀ (l : List Json) (ts : List ArrivalRecord),
      l.mapM' (processEntry now sys) = Except.ok ts →
      ∀ r ∈ ts, ∃ a ∈ l, processEntry now sys a = Except.ok r := by
    intro l
    induction l with
    | nil =>
      intro ts h r hr
      simp only [List.mapM'_nil, pure, Except.pure] at h
      cases h
      simp at hr
    | cons a as ih =>
      intro ts h r hr
      rw [List.mapM'_cons] at h
      cases ha : processEntry now sys a with
      | error e => simp [ha, Bind.bind, Except.bind] at h
      | ok b =>
        cases hrest : as.mapM' (processEntry now sys) with
        | error e => simp [ha, hrest, Bind.bind, Except.bind] at h
        | ok bs =>
          simp only [ha, hrest, Bind.bind, Except.bind, pure, Except.pure] at h
          cases h
          rcases List.mem_cons.mp hr with hb | hbs
          · exact ⟨a, List.mem_cons_self a as, by rw [ha, hb]⟩
          · obtain ⟨a', ha', hr'⟩ := ih bs hrest r hbs
            exact ⟨a', List.mem_cons_of_mem a ha', hr'⟩
  intro l ts h
  exact main l ts (by rw [List.mapM'_eq_mapM]; exact h)

/-- Inversion of a successful fetch: the navigation produced some entry
list and the loop mapped it to the result. -/
theorem get_ok_exists (netResp : Except String HttpResponse) (now : Int)
    (sys : Int → Int) (ts : List ArrivalRecord)
    (h : get_cta_train_times netResp now sys = Except.ok ts) :
    ∃ xs, fetchEntries netResp = Except.ok xs ∧
      xs.mapM (processEntry now sys) = Except.ok ts := by
  unfold get_cta_train_times at h
  cases hf : fetchEntries netResp with
  | error e => simp [hf, Bind.bind, Except.bind] at h
  | ok xs =>
    refine ⟨xs, rfl, ?_⟩
    simpa [hf, Bind.bind, Except.bind] using h

/-- Accumulator bound for the `String.intercalate` worker. -/
theorem intercalate_go_length (s : String) :
    ∀ (l : List String) (acc : String),
      acc.length ≤ (String.intercalate.go acc s l).length := by
  intro l
  induction l with
  | nil => intro acc; simp [String.intercalate.go]
  | cons a as ih =>
    intro acc
    calc acc.length ≤ (acc ++ s ++ a).length := by
          simp only [String.length_append]
          omega
      _ ≤ (String.intercalate.go (acc ++ s ++ a) s as).length := ih _
      _ = (String.intercalate.go acc s (a :: as)).length := by
          rw [String.intercalate.go]

/-- Every rendered row starts with the four characters of `<tr>`. -/
theorem renderRow_length (t : ArrivalRecord) : 4 ≤ (renderRow t).length := by
  unfold renderRow
  simp only [String.length_append]
  have h : ("<tr>" : String).length = 4 := rfl
  omega

/-- Joining at least one rendered row never yields the empty string, so the
`or`-fallback to the placeholder row is not taken. -/
theorem intercalate_rows_ne_empty (t : ArrivalRecord)
    (rest : List ArrivalRecord) :
    String.intercalate "\n" ((t :: rest).map renderRow) ≠ "" := by
  have hlen : (renderRow t).length ≤
      (String.intercalate "\n" ((t :: rest).map renderRow)).length := by
    simp only [List.map_cons, String.intercalate]
    exact intercalate_go_length "\n" (rest.map renderRow) (renderRow t)
  intro hEmpty
  rw [hEmpty] at hlen
  have h4 := renderRow_length t
  have h0 : ("" : String).length = 0 := rfl
  omega

/-! ## Claims -/

/-- C1: every record a successful `get_cta_train_times` run produces has
`minutes_away ≥ 0` and `seconds_away ∈ [0, 59]`, and an arrival whose
resolved instant precedes the clock reading yields a countdown clamped to
zero minutes and zero seconds. -/
theorem C1_countdown_invariant :
    (∀ netResp now sys ts,
        get_cta_train_times netResp now sys = Except.ok ts →
        ∀ r ∈ ts, 0 ≤ r.minutes_away ∧ 0 ≤ r.seconds_away ∧
          r.seconds_away ≤ 59) ∧
    (∀ now sys a i r, entryInstant a = Except.ok i →
        processEntry now sys a = Except.ok r → i < now →
        r.minutes_away = 0 ∧ r.seconds_away = 0) := by
  constructor
  · intro netResp now sys ts h r hr
    obtain ⟨xs, -, hmap⟩ := get_ok_exists netResp now sys ts h
    obtain ⟨a, -, ha⟩ := mapM_ok_mem now sys xs ts hmap r hr
    obtain ⟨i, -, hm, hs, -⟩ := processEntry_fields now sys a r ha
    rw [hm, hs]
    rcases lt_or_le (i - now) 0 with hlt | hge
    · rw [if_pos hlt]
      refine ⟨by omega, by omega, by omega⟩
    · rw [if_neg (not_lt.mpr hge)]
      refine ⟨by omega, by omega, by omega⟩
  · intro now sys a i r hi hp hlt
    obtain ⟨i', hi', hm, hs, -⟩ := processEntry_fields now sys a r hp
    rw [hi] at hi'
    injection hi' with hii
    subst hii
    rw [hm, hs, if_pos (by omega : i - now < 0)]
    exact ⟨by omega, by omega⟩

/-- Witness for C1 at the scenario 1 fetch (concrete record list) and at
the past-arrival entry (clamped to zero). -/
theorem C1_countdown_invariant_witness :
    (0 ≤ rec9utc.minutes_away ∧ 0 ≤ rec9utc.seconds_away ∧
      rec9utc.seconds_away ≤ 59) ∧
    (recPastUtc.minutes_away = 0 ∧ recPastUtc.seconds_away = 0) :=
  ⟨C1_countdown_invariant.1 (Except.ok ⟨200, some body9⟩) now9 sysUTC
      [rec9utc] rfl rec9utc (List.mem_singleton.mpr rfl),
    C1_countdown_invariant.2 now9 sysUTC entryPast iPast recPastUtc rfl rfl
      (by decide)⟩

/-- C2: for every record a successful `get_cta_train_times` run produces,
`minutes_away * 60 + seconds_away` equals the countdown to the entry's
resolved arrival instant, clamped at zero — the integer-division/remainder
split round-trips to the clamped duration. -/
theorem C2_split_roundtrip :
    ∀ netResp now sys ts,
      get_cta_train_times netResp now sys = Except.ok ts →
      ∀ r ∈ ts, ∃ a i, entryInstant a = Except.ok i ∧
        processEntry now sys a = Except.ok r ∧
        r.minutes_away * 60 + r.seconds_away = max (i - now) 0 := by
  intro netResp now sys ts h r hr
  obtain ⟨xs, -, hmap⟩ := get_ok_exists netResp now sys ts h
  obtain ⟨a, -, ha⟩ := mapM_ok_mem now sys xs ts hmap r hr
  obtain ⟨i, hi, hm, hs, -⟩ := processEntry_fields now sys a r ha
  refine ⟨a, i, hi, ha, ?_⟩
  rw [hm, hs]
  rcases lt_or_le (i - now) 0 with hlt | hge
  · rw [if_pos hlt]
    omega
  · rw [if_neg (not_lt.mpr hge)]
    omega

/-- Witness for C2 at the past-arrival fetch, where the clamp is active. -/
theorem C2_split_roundtrip_witness :
    ∃ a i, entryInstant a = Except.ok i ∧
      processEntry now9 sysUTC a = Except.ok recPastUtc ∧
      recPastUtc.minutes_away * 60 + recPastUtc.seconds_away =
        max (i - now9) 0 :=
  C2_split_roundtrip (Except.ok ⟨200, some bodyPast⟩) now9 sysUTC
    [recPastUtc] rfl recPastUtc (List.mem_singleton.mpr rfl)

/-- C3: an arrival timestamp that parses with no time-zone information is
localized with the fixed America/Chicago zone — the resolved instant is the
civil reading minus the Chicago offset (always -18000 or -21600 seconds,
CDT or CST), and in particular never the UTC interpretation of that
reading. -/
theorem C3_naive_assumed_chicago :
    ∀ (kvs : List (String × Json)) (s : String) (dt : ParsedDT),
      jlookup kvs "arrT" = some (Json.str s) →
      dateutil_parse s = some dt → dt.tzOffset = none →
      entryInstant (Json.obj kvs) =
        Except.ok (dt.civil.toEpoch - chicagoWallOffset dt.civil) ∧
      (chicagoWallOffset dt.civil = -18000 ∨
        chicagoWallOffset dt.civil = -21600) ∧
      entryInstant (Json.obj kvs) ≠ Except.ok dt.civil.toEpoch := by
  intro kvs s dt hl hp hnone
  have h1 : entryInstant (Json.obj kvs) = Except.ok (parsedInstant dt) := by
    simp [entryInstant, hl, hp]
  have h2 : parsedInstant dt = dt.civil.toEpoch - chicagoWallOffset dt.civil := by
    simp [parsedInstant, hnone]
  have h3 : chicagoWallOffset dt.civil = -18000 ∨
      chicagoWallOffset dt.civil = -21600 := by
    unfold chicagoWallOffset
    split <;> simp
  refine ⟨by rw [h1, h2], h3, ?_⟩
  rw [h1, h2]
  intro hcontra
  injection hcontra with hc
  omega

/-- Witness for C3 at a concrete naive timestamp (summer, so CDT). -/
theorem C3_naive_assumed_chicago_witness :
    entryInstant (Json.obj [("arrT", Json.str "2024-06-01T12:00:00")]) =
      Except.ok ((⟨2024, 6, 1, 12, 0, 0⟩ : Civil).toEpoch -
        chicagoWallOffset ⟨2024, 6, 1, 12, 0, 0⟩) ∧
    (chicagoWallOffset ⟨2024, 6, 1, 12, 0, 0⟩ = -18000 ∨
      chicagoWallOffset ⟨2024, 6, 1, 12, 0, 0⟩ = -21600) ∧
    entryInstant (Json.obj [("arrT", Json.str "2024-06-01T12:00:00")]) ≠
      Except.ok (⟨2024, 6, 1, 12, 0, 0⟩ : Civil).toEpoch :=
  C3_naive_assumed_chicago [("arrT", Json.str "2024-06-01T12:00:00")]
    "2024-06-01T12:00:00" ⟨⟨2024, 6, 1, 12, 0, 0⟩, none⟩ rfl rfl rfl

/-- C4 counterexample: on a host whose local zone is UTC, the scenario 1
entry's record carries `arrival_time = "2024-01-01 16:05:00"`, not the
America/Chicago civil representation `"2024-01-01 10:05:00"` of the same
instant — the display conversion `astimezone()` (source line 65) targets
the host system's zone, not the fixed reference zone. -/
theorem C4_fixed_zone_cex :
    ∃ r, processEntry now9 sysUTC entry9 = Except.ok r ∧
      entryInstant entry9 = Except.ok i9 ∧
      formatYmdHms (civilFromEpoch (i9 + chicagoInstantOffset i9)) =
        "2024-01-01 10:05:00" ∧
      r.arrival_time = "2024-01-01 16:05:00" ∧
      r.arrival_time ≠
        formatYmdHms (civilFromEpoch (i9 + chicagoInstantOffset i9)) :=
  ⟨rec9utc, rfl, rfl, rfl, rfl, by decide⟩

/-- C4 amended: every record's `arrival_time` is the absolute arrival
instant rendered `YYYY-MM-DD HH:MM:SS` in the host system's local zone
(the target of the no-argument `astimezone()`), which coincides with the
fixed America/Chicago representation exactly when the host zone is
America/Chicago. -/
theorem C4_formats_in_system_zone :
    ∀ now sys a i r, entryInstant a = Except.ok i →
      processEntry now sys a = Except.ok r →
      r.arrival_time = formatYmdHms (civilFromEpoch (i + sys i)) := by
  intro now sys a i r hi hp
  obtain ⟨i', hi', -, -, hat, -⟩ := processEntry_fields now sys a r hp
  rw [hi] at hi'
  injection hi' with h
  subst h
  exact hat

/-- Witness for the amended C4 at the scenario 1 entry on a UTC host. -/
theorem C4_formats_in_system_zone_witness :
    rec9utc.arrival_time = formatYmdHms (civilFromEpoch (i9 + sysUTC i9)) :=
  C4_formats_in_system_zone now9 sysUTC entry9 i9 rec9utc rfl rfl

/-- C5: a successfully parsed object body with no `ctatt` key, or whose
`ctatt` object has no `eta` key, makes `get_cta_train_times` return the
empty record list rather than an error. -/
theorem C5_missing_keys_empty :
    ∀ (resp : HttpResponse) (kvs : List (String × Json)) (now : Int)
      (sys : Int → Int),
      raise_for_status resp = Except.ok () →
      resp.body = some (Json.obj kvs) →
      (jlookup kvs "ctatt" = none ∨
        ∃ kvs2, jlookup kvs "ctatt" = some (Json.obj kvs2) ∧
          jlookup kvs2 "eta" = none) →
      get_cta_train_times (Except.ok resp) now sys = Except.ok [] := by
  intro resp kvs now sys hst hb habs
  have hfe : fetchEntries (Except.ok resp) = Except.ok [] := by
    unfold fetchEntries
    rcases habs with h1 | ⟨kvs2, h1, h2⟩
    · simp [Bind.bind, Except.bind, hst, hb, pyDictGetD, h1, jlookup]
    · simp [Bind.bind, Except.bind, hst, hb, pyDictGetD, h1, h2]
  unfold get_cta_train_times
  simp only [Bind.bind, Except.bind, hfe]
  rfl

/-- Witness for C5 at the scenario 3 body `{"ctatt": {}}`. -/
theorem C5_missing_keys_empty_witness :
    get_cta_train_times (Except.ok ⟨200, some bodyNoEta⟩) now9 sysUTC =
      Except.ok [] :=
  C5_missing_keys_empty ⟨200, some bodyNoEta⟩ [("ctatt", Json.obj [])] now9
    sysUTC rfl rfl (Or.inr ⟨[], rfl, rfl⟩)

/-- C6: rendering the empty record sequence produces a document whose table
body is exactly the `"No data"` placeholder row spanning all columns — one
placeholder row, no data rows (data rows, and only they, start with the
characters `<tr><td>`; the placeholder starts `<tr><td colspan=4>`). -/
theorem C6_empty_renders_placeholder :
    ∀ (stop : String) (refresh renderNow : Int),
      write_html stop renderNow [] refresh =
        htmlDocPrefix stop refresh renderNow ++ noDataRow ++ htmlPart6 ∧
      rowsFor [] = noDataRow ∧
      countOccs noDataRow.data (rowsFor []).data = 1 ∧
      countOccs "<tr><td>".data (rowsFor []).data = 0 ∧
      countOccs "<tr".data (rowsFor []).data = 1 := by
  intro stop refresh renderNow
  exact ⟨rfl, rfl, by decide, by decide, by decide⟩

/-- C7: rendering a non-empty sequence of `N` records produces a document
whose table body is the newline-join of exactly one row per record, in the
input order, each row holding the four cells route, destination, absolute
arrival time and time-remaining string in that order. -/
theorem C7_rows_in_order :
    ∀ (stop : String) (refresh renderNow : Int) (ts : List ArrivalRecord),
      ts ≠ [] →
      write_html stop renderNow ts refresh =
        htmlDocPrefix stop refresh renderNow ++
          String.intercalate "\n" (ts.map renderRow) ++ htmlPart6 ∧
      (ts.map renderRow).length = ts.length ∧
      ∀ t, renderRow t =
        "<tr>" ++ ("<td>" ++ pyStr t.route ++ "</td>") ++
          ("<td>" ++ pyStr t.destination ++ "</td>") ++
          ("<td>" ++ t.arrival_time ++ "</td>") ++
          ("<td>" ++ t.time_remaining ++ "</td>") ++ "</tr>" := by
  intro stop refresh renderNow ts hne
  obtain ⟨t, rest, rfl⟩ := List.exists_cons_of_ne_nil hne
  refine ⟨?_, by simp, ?_⟩
  · simp only [write_html, rowsFor]
    rw [if_neg (intercalate_rows_ne_empty t rest)]
  · intro t'
    apply String.ext
    simp only [renderRow, String.data_append, List.append_assoc]

/-- Witness for C7 at a one-record list. -/
theorem C7_rows_in_order_witness :
    write_html "40360" now9 [rec9utc] 2 =
      htmlDocPrefix "40360" 2 now9 ++
        String.intercalate "\n" ([rec9utc].map renderRow) ++ htmlPart6 ∧
    ([rec9utc].map renderRow).length = [rec9utc].length :=
  ⟨(C7_rows_in_order "40360" 2 now9 [rec9utc] (List.cons_ne_nil _ _)).1,
    (C7_rows_in_order "40360" 2 now9 [rec9utc] (List.cons_ne_nil _ _)).2.1⟩

/-- C8 amended: when the fetch stage fails — a raised transport exception,
an HTTP status in the 400-599 range (the statuses `raise_for_status`
treats as errors; other non-2xx statuses such as 3xx are not fetch
failures, see the counterexample), or an unparseable JSON body — the run
propagates the error and the output file state is returned unchanged: no
render happens and a previously written file is untouched. -/
theorem C8_fetch_failure_leaves_file :
    (∀ netResp fetchNow sys renderNow stop fs e,
        get_cta_train_times netResp fetchNow sys = Except.error e →
        run_main netResp fetchNow sys renderNow stop fs =
          (fs, Except.error e)) ∧
    (∀ msg now sys,
        get_cta_train_times (Except.error msg) now sys =
          Except.error msg) ∧
    (∀ (resp : HttpResponse) now sys, 400 ≤ resp.status →
        resp.status < 600 →
        get_cta_train_times (Except.ok resp) now sys =
          Except.error "HTTPError") ∧
    (∀ (resp : HttpResponse) now sys, raise_for_status resp = Except.ok () →
        resp.body = none →
        get_cta_train_times (Except.ok resp) now sys =
          Except.error "JSONDecodeError") := by
  refine ⟨?_, ?_, ?_, ?_⟩
  · intro netResp fetchNow sys renderNow stop fs e h
    simp only [run_main, h]
  · intro msg now sys
    rfl
  · intro resp now sys h1 h2
    have hrs : raise_for_status resp = Except.error "HTTPError" := by
      unfold raise_for_status
      rw [if_pos ⟨h1, h2⟩]
    unfold get_cta_train_times fetchEntries
    simp [Bind.bind, Except.bind, hrs]
  · intro resp now sys hst hb
    unfold get_cta_train_times fetchEntries
    simp [Bind.bind, Except.bind, hst, hb]

/-- Witness for C8: an HTTP 500 response leaves a previously written file
untouched and aborts with the transport error. -/
theorem C8_fetch_failure_leaves_file_witness :
    run_main (Except.ok ⟨500, some body9⟩) now9 sysUTC now9 "40360"
        ⟨some "previous page"⟩ =
      (⟨some "previous page"⟩, Except.error "HTTPError") :=
  C8_fetch_failure_leaves_file.1 (Except.ok ⟨500, some body9⟩) now9 sysUTC
    now9 "40360" ⟨some "previous page"⟩ "HTTPError" rfl

/-- C8 counterexample: a non-2xx status outside 400-599 is not a fetch
failure.  An HTTP 300 response with the valid JSON body `{}` passes
`raise_for_status` (source line 45 raises only for 400-599), fetches an
empty record list, and the run goes on to render and overwrite the
previously written output file — refuting the claim that every run with a
non-2xx status aborts before any render with the file unmodified. -/
theorem C8_non2xx_not_failure_cex :
    raise_for_status ⟨300, some (Json.obj [])⟩ = Except.ok () ∧
    get_cta_train_times (Except.ok ⟨300, some (Json.obj [])⟩) now9 sysUTC =
      Except.ok [] ∧
    run_main (Except.ok ⟨300, some (Json.obj [])⟩) now9 sysUTC now9 "40360"
        ⟨some "previous page"⟩ =
      (⟨some (write_html "40360" now9 [])⟩, Except.ok ()) ∧
    some (write_html "40360" now9 []) ≠ some "previous page" :=
  ⟨rfl, rfl, rfl, by decide⟩

/-- C9: on the scenario 1 payload with the clock at
`2024-01-01T10:00:00-06:00`, the fetch returns exactly one record with
`minutes_away = 5`, `seconds_away = 0` and `time_remaining = "5m 0s"`,
whatever the host zone. -/
theorem C9_scenario1 :
    ∀ sys : Int → Int, ∃ r,
      get_cta_train_times (Except.ok ⟨200, some body9⟩) now9 sys =
        Except.ok [r] ∧
      r.minutes_away = 5 ∧ r.seconds_away = 0 ∧
      r.time_remaining = "5m 0s" := by
  intro sys
  exact ⟨_, rfl, rfl, rfl, rfl⟩

/-- C10: the route and destination strings are interpolated verbatim into
the row markup — no HTML escaping — so markup characters in
upstream-supplied text reach the page unescaped (concretely: a
`<script>` route tag survives intact and no `&lt;`/`&amp;` entity is
introduced). -/
theorem C10_no_html_escaping :
    (∀ (rt dest atime trem : String) (m s : Int),
        (renderRow ⟨Json.str rt, Json.str dest, atime, m, s, trem⟩).data =
          "<tr><td>".data ++ rt.data ++ "</td><td>".data ++ dest.data ++
            "</td><td>".data ++ atime.data ++ "</td><td>".data ++
            trem.data ++ "</td></tr>".data) ∧
    countOccs "<script>".data
      (renderRow ⟨Json.str "<script>alert(1)</script>", Json.str "Kimball",
        "2024-01-01 10:05:00", 5, 0, "5m 0s"⟩).data = 1 ∧
    countOccs "&lt;".data
      (renderRow ⟨Json.str "<script>alert(1)</script>", Json.str "Kimball",
        "2024-01-01 10:05:00", 5, 0, "5m 0s"⟩).data = 0 ∧
    countOccs "&amp;".data
      (renderRow ⟨Json.str "<script>alert(1)</script>", Json.str "Kimball",
        "2024-01-01 10:05:00", 5, 0, "5m 0s"⟩).data = 0 := by
  refine ⟨?_, by decide, by decide, by decide⟩
  intro rt dest atime trem m s
  simp only [renderRow, pyStr, String.data_append, List.append_assoc,
    List.cons_append, List.nil_append]
